import Mathlib

/-
  Shallow embedding of the cbt-exam session/scoring core.

  Sources embedded:
  - internal/session/domain/session.go        (SessionStatus, ExamSession, Answer,
                                               RemainingTime, CalculateRemainingTime)
  - internal/session/service/service.go       (StartSession, SubmitAnswer,
                                               FinishSession, GetRemainingTime)
  - internal/session/repository/postgres/repository.go
                                              (StartSession, GetSession,
                                               UpdateSessionStatus, FinishSession,
                                               SubmitAnswer, IsExamActive,
                                               HasActiveSession)
  - internal/scoring/domain (ExamScore, Answer, CalculateScore method)
  - internal/scoring/service/service.go       (CalculateScore)
  - internal/scoring/repository/postgres/repository.go
                                              (CreateScore, GetCorrectAnswers)
  - SQL schemas: exam_sessions / session_answers / exam_scores tables
    (UNIQUE (session_id, question_id), UNIQUE (exam_id, student_id)).

  Modelling conventions: wall-clock instants are integers (seconds);
  the relational store is an explicit record of lists threaded through
  each operation; Go float32 score arithmetic is modelled over ℚ;
  gRPC status codes and the repository error sentinels are enumerations.
  Each operation returns the (possibly updated) store together with an
  Except result, mirroring the Go code where an early error return
  performs no write (transactions are rolled back on error paths).
-/

namespace CbtExam

/-- Session status enumeration, from internal/session/domain/session.go. -/
inductive SessionStatus
  | started
  | inProgress
  | finished
  | timeout
deriving DecidableEq, Repr

/-- Exam activation state, from the exams table (exam_state enum). -/
inductive ExamState
  | created
  | active
  | finished
deriving DecidableEq, Repr

/-- Exam row: the fields of the exams table that the session/scoring core reads. -/
structure Exam where
  id : String
  state : ExamState
  durationMinutes : Int
deriving DecidableEq, Repr

/-- Answer in the session ledger, from internal/session/domain/session.go. -/
structure Answer where
  questionID : String
  selectedChoice : String
  answeredAt : Int
deriving DecidableEq, Repr

/-- ExamSession, from internal/session/domain/session.go.
The end_time column is nullable, hence an Option. -/
structure ExamSession where
  id : String
  examID : String
  studentID : String
  sessionStatus : SessionStatus
  startTime : Int
  endTime : Option Int
  answers : List Answer
deriving DecidableEq, Repr

/-- Question row: the fields of the questions table the scoring join reads. -/
structure Question where
  id : String
  examID : String
  correctAnswer : String
deriving DecidableEq, Repr

/-- ExamScore, from internal/scoring/domain. Score is float32 in Go,
modelled over ℚ. -/
structure ExamScore where
  id : String
  examID : String
  sessionID : String
  studentID : String
  totalQuestions : Int
  correctAnswers : Int
  wrongAnswers : Int
  unansweredCount : Int
  score : ℚ
  createdAt : Int
deriving DecidableEq, Repr

/-- Scoring-side joined row, from internal/scoring/domain (Answer). -/
structure ScoringAnswer where
  questionID : String
  correctAnswer : String
  studentAnswer : String
deriving DecidableEq, Repr

/-- gRPC status codes used by the two services. -/
inductive ErrCode
  | notFound
  | failedPrecondition
  | alreadyExists
  | internal
deriving DecidableEq, Repr

/-- A gRPC status error: code plus human-readable message. -/
structure ServiceError where
  code : ErrCode
  msg : String
deriving DecidableEq, Repr

/-- Repository sentinel errors (ErrExamNotFound, ErrSessionNotFound, ...). -/
inductive RepoError
  | examNotFound
  | examNotActive
  | sessionNotFound
  | invalidSessionState
  | duplicateSession
  | duplicateScore
deriving DecidableEq, Repr

/-- The relational store of record shared by the services. -/
structure Store where
  exams : List Exam
  questions : List Question
  sessions : List ExamSession
  scores : List ExamScore
deriving DecidableEq, Repr

/-- SELECT on exams by primary key. -/
def findExam (exams : List Exam) (examID : String) : Option Exam :=
  exams.find? (fun e => e.id == examID)

/-- SELECT on exam_sessions by primary key. -/
def findSession (sessions : List ExamSession) (id : String) : Option ExamSession :=
  sessions.find? (fun s => s.id == id)

/-- A live status is STARTED or IN_PROGRESS (the status IN ('STARTED','IN_PROGRESS')
filter used by the repository). -/
def isLive (s : SessionStatus) : Bool :=
  s == SessionStatus.started || s == SessionStatus.inProgress

/-- Repository IsExamActive: SELECT status = 'ACTIVE' FROM exams WHERE id = $1;
no rows maps to ErrExamNotFound. -/
def repoIsExamActive (st : Store) (examID : String) : Except RepoError Bool :=
  match findExam st.exams examID with
  | none => .error .examNotFound
  | some e => .ok (e.state == ExamState.active)

/-- Repository HasActiveSession: COUNT(*) > 0 over the student's sessions with
status IN ('STARTED','IN_PROGRESS'). -/
def hasActiveSession (sessions : List ExamSession) (studentID : String) : Bool :=
  sessions.any (fun s => s.studentID == studentID && isLive s.sessionStatus)

/-- Repository StartSession: inside one transaction, re-check the exam is
active, check the student has no live session, then INSERT. -/
def repoStartSession (st : Store) (session : ExamSession) :
    Store × Except RepoError Unit :=
  match findExam st.exams session.examID with
  | none => (st, .error .examNotFound)
  | some e =>
    if e.state != ExamState.active then
      (st, .error .examNotActive)
    else if hasActiveSession st.sessions session.studentID then
      (st, .error .duplicateSession)
    else
      ({ st with sessions := st.sessions ++ [session] }, .ok ())

/-- Repository UpdateSessionStatus: UPDATE exam_sessions SET status = $1,
end_time = CASE WHEN $1 IN ('FINISHED','TIMEOUT') THEN now ELSE end_time END
WHERE id = $2; zero rows affected maps to ErrSessionNotFound. -/
def updateSessionStatus (st : Store) (id : String) (newStatus : SessionStatus)
    (now : Int) : Store × Except RepoError Unit :=
  if st.sessions.any (fun s => s.id == id) then
    ({ st with sessions := st.sessions.map (fun s =>
        if s.id == id then
          { s with
            sessionStatus := newStatus,
            endTime :=
              if newStatus == SessionStatus.finished
                  || newStatus == SessionStatus.timeout then
                some now
              else s.endTime }
        else s) },
     .ok ())
  else
    (st, .error .sessionNotFound)

/-- Repository FinishSession delegates to UpdateSessionStatus FINISHED. -/
def repoFinishSession (st : Store) (id : String) (now : Int) :
    Store × Except RepoError Unit :=
  updateSessionStatus st id SessionStatus.finished now

/-- The INSERT ... ON CONFLICT (session_id, question_id) DO UPDATE upsert on the
session_answers table, restricted to one session's ledger. -/
def upsertAnswer (answers : List Answer) (a : Answer) : List Answer :=
  if answers.any (fun x => x.questionID == a.questionID) then
    answers.map (fun x =>
      if x.questionID == a.questionID then
        { x with selectedChoice := a.selectedChoice, answeredAt := a.answeredAt }
      else x)
  else
    answers ++ [a]

/-- Repository SubmitAnswer: check the session exists and is live, upsert the
answer, and advance STARTED to IN_PROGRESS when this was the status read. -/
def repoSubmitAnswer (st : Store) (sessionID : String) (a : Answer) (now : Int) :
    Store × Except RepoError Unit :=
  match findSession st.sessions sessionID with
  | none => (st, .error .sessionNotFound)
  | some s =>
    if s.sessionStatus != SessionStatus.started
        && s.sessionStatus != SessionStatus.inProgress then
      (st, .error .invalidSessionState)
    else
      let st1 : Store :=
        { st with sessions := st.sessions.map (fun x =>
            if x.id == sessionID then
              { x with answers := upsertAnswer x.answers a }
            else x) }
      if s.sessionStatus == SessionStatus.started then
        updateSessionStatus st1 sessionID SessionStatus.inProgress now
      else
        (st1, .ok ())

/-- Service StartSession, from internal/session/service/service.go.
newID stands for the id the INSERT's RETURNING clause produces. -/
def startSession (st : Store) (examID studentID newID : String) (now : Int) :
    Store × Except ServiceError ExamSession :=
  match repoIsExamActive st examID with
  | .error .examNotFound => (st, .error ⟨.notFound, "exam not found"⟩)
  | .error _ => (st, .error ⟨.internal, "failed to check exam status"⟩)
  | .ok isActive =>
    if !isActive then
      (st, .error ⟨.failedPrecondition, "exam is not active"⟩)
    else if hasActiveSession st.sessions studentID then
      (st, .error ⟨.failedPrecondition, "student already has an active session"⟩)
    else
      let session : ExamSession :=
        { id := newID, examID := examID, studentID := studentID,
          sessionStatus := SessionStatus.started, startTime := now,
          endTime := none, answers := [] }
      match repoStartSession st session with
      | (st1, .ok _) => (st1, .ok session)
      | (_, .error _) => (st, .error ⟨.internal, "failed to start session"⟩)

/-- Service SubmitAnswer, from internal/session/service/service.go. -/
def submitAnswer (st : Store) (sessionID questionID selectedChoice : String)
    (now : Int) : Store × Except ServiceError Bool :=
  let a : Answer :=
    { questionID := questionID, selectedChoice := selectedChoice,
      answeredAt := now }
  match repoSubmitAnswer st sessionID a now with
  | (st1, .ok _) => (st1, .ok true)
  | (st1, .error .sessionNotFound) =>
    (st1, .error ⟨.notFound, "session not found"⟩)
  | (st1, .error .invalidSessionState) =>
    (st1, .error ⟨.failedPrecondition, "session is not in valid state for answering"⟩)
  | (st1, .error _) => (st1, .error ⟨.internal, "failed to submit answer"⟩)

/-- Service FinishSession, from internal/session/service/service.go: fetch the
session, reject only the FINISHED status, then update and return the session
with status FINISHED and end time set to the call time. -/
def finishSession (st : Store) (id : String) (now : Int) :
    Store × Except ServiceError ExamSession :=
  match findSession st.sessions id with
  | none => (st, .error ⟨.notFound, "session not found"⟩)
  | some s =>
    if s.sessionStatus == SessionStatus.finished then
      (st, .error ⟨.failedPrecondition, "session is already finished"⟩)
    else
      match repoFinishSession st id now with
      | (st1, .ok _) =>
        (st1, .ok { s with sessionStatus := SessionStatus.finished,
                           endTime := some now })
      | (_, .error _) => (st, .error ⟨.internal, "failed to finish session"⟩)

/-- RemainingTime, from internal/session/domain/session.go. -/
structure RemainingTime where
  minutes : Int
  seconds : Int
deriving DecidableEq, Repr

/-- ExamSession.CalculateRemainingTime, from internal/session/domain/session.go:
terminal sessions report zero; otherwise remaining = start + duration - now,
reported as zero when negative, else split into whole minutes and leftover
seconds. -/
def calculateRemainingTime (s : ExamSession) (durationMinutes : Int)
    (now : Int) : RemainingTime :=
  if s.sessionStatus == SessionStatus.finished
      || s.sessionStatus == SessionStatus.timeout then
    ⟨0, 0⟩
  else
    let endTime := s.startTime + durationMinutes * 60
    let remaining := endTime - now
    if remaining < 0 then ⟨0, 0⟩
    else ⟨remaining / 60, remaining % 60⟩

/-- The constant exam duration hard-coded in service.GetRemainingTime
("Untuk sementara kita hardcode sebagai contoh"). -/
def examDurationMinutes : Int := 120

/-- Service GetRemainingTime, from internal/session/service/service.go: fetch
the session and compute remaining time against the hard-coded constant
duration. It never reads the exams table. -/
def getRemainingTime (st : Store) (sessionID : String) (now : Int) :
    Except ServiceError RemainingTime :=
  match findSession st.sessions sessionID with
  | none => .error ⟨.notFound, "session not found"⟩
  | some s => .ok (calculateRemainingTime s examDurationMinutes now)

/-- ExamScore.CalculateScore method, from the scoring domain: sets the
percentage when total > 0 and derives wrong = total - correct - unanswered. -/
def calculateScoreDomain (s : ExamScore) : ExamScore :=
  let s1 :=
    if s.totalQuestions > 0 then
      { s with score := (s.correctAnswers : ℚ) / (s.totalQuestions : ℚ) * 100 }
    else s
  { s1 with wrongAnswers := s1.totalQuestions - s1.correctAnswers - s1.unansweredCount }

/-- Repository GetCorrectAnswers: the SQL join of the session's exam's full
question list against the session's ledger (LEFT JOIN, a question the student
never answered contributes an empty student choice); zero joined rows map to
ErrSessionNotFound. -/
def repoGetCorrectAnswers (st : Store) (sessionID : String) :
    Except RepoError (List ScoringAnswer) :=
  let rows : List ScoringAnswer :=
    match findSession st.sessions sessionID with
    | none => []
    | some es =>
      (st.questions.filter (fun q => q.examID == es.examID)).map (fun q =>
        { questionID := q.id, correctAnswer := q.correctAnswer,
          studentAnswer :=
            match es.answers.find? (fun a => a.questionID == q.id) with
            | some a => a.selectedChoice
            | none => "" })
  if rows.isEmpty then .error .sessionNotFound else .ok rows

/-- Repository CreateScore: INSERT into exam_scores; the UNIQUE
(exam_id, student_id) constraint violation maps to ErrDuplicateScore. -/
def repoCreateScore (st : Store) (score : ExamScore) :
    Store × Except RepoError Unit :=
  if st.scores.any (fun s =>
      s.examID == score.examID && s.studentID == score.studentID) then
    (st, .error .duplicateScore)
  else
    ({ st with scores := st.scores ++ [score] }, .ok ())

/-- The body of service.CalculateScore's counting loop: an empty student
answer counts as unanswered, a student answer equal to the correct answer
counts as correct, anything else falls through. -/
def tallyStep (acc : ExamScore) (a : ScoringAnswer) : ExamScore :=
  if a.studentAnswer == "" then
    { acc with unansweredCount := acc.unansweredCount + 1 }
  else if a.studentAnswer == a.correctAnswer then
    { acc with correctAnswers := acc.correctAnswers + 1 }
  else acc

/-- The tallying step of service.CalculateScore: starting from the zero-valued
score literal (only SessionID and TotalQuestions set, ExamID/StudentID left at
their zero value ""), count unanswered and correct rows, then apply the domain
CalculateScore method. -/
def scoreOfAnswers (sessionID : String) (answers : List ScoringAnswer) :
    ExamScore :=
  let base : ExamScore :=
    { id := "", examID := "", sessionID := sessionID, studentID := "",
      totalQuestions := (answers.length : Int),
      correctAnswers := 0, wrongAnswers := 0, unansweredCount := 0,
      score := 0, createdAt := 0 }
  calculateScoreDomain (answers.foldl tallyStep base)

/-- Service CalculateScore, from internal/scoring/service/service.go.
newID and now stand for the id and created_at the INSERT's RETURNING clause
produces. -/
def calculateScore (st : Store) (sessionID newID : String) (now : Int) :
    Store × Except ServiceError ExamScore :=
  match repoGetCorrectAnswers st sessionID with
  | .error .sessionNotFound => (st, .error ⟨.notFound, "session not found"⟩)
  | .error _ => (st, .error ⟨.internal, "failed to get answers"⟩)
  | .ok answers =>
    let score := { scoreOfAnswers sessionID answers with
                     id := newID, createdAt := now }
    match repoCreateScore st score with
    | (st1, .ok _) => (st1, .ok score)
    | (_, .error .duplicateScore) =>
      (st, .error ⟨.alreadyExists, "score already exists for this exam and student"⟩)
    | (_, .error _) => (st, .error ⟨.internal, "failed to save score"⟩)

/-- The one-live-session invariant relation: no two entries of the sessions
table are both live for the same student. -/
def noTwoLive (a b : ExamSession) : Prop :=
  ¬(isLive a.sessionStatus = true ∧ isLive b.sessionStatus = true ∧
    a.studentID = b.studentID)

instance (a b : ExamSession) : Decidable (noTwoLive a b) := by
  unfold noTwoLive; infer_instance

/-- At most one live session per student, phrased pairwise over the table. -/
def atMostOneLivePerStudent (sessions : List ExamSession) : Prop :=
  List.Pairwise noTwoLive sessions

instance (sessions : List ExamSession) :
    Decidable (atMostOneLivePerStudent sessions) := by
  unfold atMostOneLivePerStudent; infer_instance

/-- Primary-key uniqueness of the exam_sessions table. -/
def sessionIdsNodup (sessions : List ExamSession) : Prop :=
  (sessions.map (fun s => s.id)).Nodup

instance (sessions : List ExamSession) : Decidable (sessionIdsNodup sessions) := by
  unfold sessionIdsNodup; infer_instance

instance {ε α : Type} [DecidableEq ε] [DecidableEq α] :
    DecidableEq (Except ε α) := fun a b =>
  match a, b with
  | .ok x, .ok y =>
    if h : x = y then .isTrue (by rw [h]) else .isFalse (by simp [h])
  | .error x, .error y =>
    if h : x = y then .isTrue (by rw [h]) else .isFalse (by simp [h])
  | .ok _, .error _ => .isFalse (by simp)
  | .error _, .ok _ => .isFalse (by simp)

/-
  Concrete fixtures used by the scenario claims and the witnesses.
-/

/-- The spec's scoring scenario: five questions with correct keys
A, B, C, D, A; the student submitted A, C, nothing, nothing, B. -/
def scenarioAnswers : List ScoringAnswer :=
  [⟨"q1", "A", "A"⟩, ⟨"q2", "B", "C"⟩, ⟨"q3", "C", ""⟩,
   ⟨"q4", "D", ""⟩, ⟨"q5", "A", "B"⟩]

/-- A store with one finished and one timed-out session on an active exam. -/
def terminalStore : Store :=
  { exams := [⟨"e1", ExamState.active, 60⟩],
    questions := [],
    sessions :=
      [⟨"f1", "e1", "stuF", SessionStatus.finished, 0, some 40, []⟩,
       ⟨"t1", "e1", "stuT", SessionStatus.timeout, 0, some 70, []⟩],
    scores := [] }

/-- A store with a finished session holding one correct answer, ready for
scoring: exam e1, question q1 with key A, student stu1 answered A. -/
def scoringStore : Store :=
  { exams := [⟨"e1", ExamState.active, 60⟩],
    questions := [⟨"q1", "e1", "A"⟩],
    sessions :=
      [⟨"s1", "e1", "stu1", SessionStatus.finished, 0, some 50,
        [⟨"q1", "A", 10⟩]⟩],
    scores := [] }

/-- A store with two active exams whose configured durations differ (30 and
240 minutes) and one started session on each, both started at instant 0. -/
def durationStore : Store :=
  { exams := [⟨"e1", ExamState.active, 30⟩, ⟨"e2", ExamState.active, 240⟩],
    questions := [],
    sessions :=
      [⟨"s1", "e1", "stu1", SessionStatus.started, 0, none, []⟩,
       ⟨"s2", "e2", "stu2", SessionStatus.started, 0, none, []⟩],
    scores := [] }

/-- A store with one active exam (and one merely created exam) and one live
session for student stu1. -/
def liveStore : Store :=
  { exams := [⟨"e1", ExamState.active, 60⟩, ⟨"e2", ExamState.created, 60⟩],
    questions := [],
    sessions := [⟨"s1", "e1", "stu1", SessionStatus.started, 5, none, []⟩],
    scores := [] }

/-
  Helper lemmas shared by several claims.
-/

/-- A successful primary-key lookup makes the corresponding EXISTS check true. -/
theorem any_id_of_findSession {l : List ExamSession} {sid : String}
    {s : ExamSession} (h : findSession l sid = some s) :
    (l.any (fun x => x.id == sid)) = true := by
  unfold findSession at h
  exact List.any_eq_true.mpr
    ⟨s, List.mem_of_find?_eq_some h,
      List.find?_some (p := fun x : ExamSession => x.id == sid) h⟩

/-- Primary-key lookup commutes with an id-preserving row update. -/
theorem findSession_map {l : List ExamSession} (f : ExamSession → ExamSession)
    (hf : ∀ x, (f x).id = x.id) (sid : String) :
    findSession (l.map f) sid = (findSession l sid).map f := by
  induction l with
  | nil => rfl
  | cons a t ih =>
    unfold findSession at *
    cases ha : (a.id == sid) with
    | true =>
      rw [List.map_cons,
        List.find?_cons_of_pos (p := fun s : ExamSession => s.id == sid) _
          (by show ((f a).id == sid) = true; rw [hf a]; exact ha),
        List.find?_cons_of_pos (p := fun s : ExamSession => s.id == sid) _
          (by show (a.id == sid) = true; exact ha),
        Option.map_some']
    | false =>
      rw [List.map_cons,
        List.find?_cons_of_neg (p := fun s : ExamSession => s.id == sid) _
          (by show ¬((f a).id == sid) = true; rw [hf a, ha]; simp),
        List.find?_cons_of_neg (p := fun s : ExamSession => s.id == sid) _
          (by show ¬(a.id == sid) = true; rw [ha]; simp), ih]


/-
  Claim theorems.
-/

/-- Claim C9: GetRemainingTime computes remaining = (start_time + exam_duration)
− now clamped to zero — the minutes/seconds pair decomposes exactly that clamped
remainder — and for every session whose status is Finished or Timeout it
returns {0, 0} regardless of elapsed time, both at the domain and the service
level. -/
theorem claim_C9 : ∀ (s : ExamSession) (durationMinutes now : Int),
    ((s.sessionStatus = SessionStatus.finished ∨
        s.sessionStatus = SessionStatus.timeout) →
      calculateRemainingTime s durationMinutes now = ⟨0, 0⟩ ∧
      ∀ (st : Store) (sid : String), findSession st.sessions sid = some s →
        getRemainingTime st sid now = .ok ⟨0, 0⟩)
  ∧ (¬(s.sessionStatus = SessionStatus.finished ∨
        s.sessionStatus = SessionStatus.timeout) →
      (calculateRemainingTime s durationMinutes now).minutes * 60 +
          (calculateRemainingTime s durationMinutes now).seconds =
        max 0 (s.startTime + durationMinutes * 60 - now) ∧
      0 ≤ (calculateRemainingTime s durationMinutes now).seconds ∧
      (calculateRemainingTime s durationMinutes now).seconds < 60 ∧
      0 ≤ (calculateRemainingTime s durationMinutes now).minutes) := by
  intro s d now
  have hterm : ∀ d' : Int,
      (s.sessionStatus = SessionStatus.finished ∨
        s.sessionStatus = SessionStatus.timeout) →
      calculateRemainingTime s d' now = ⟨0, 0⟩ := by
    intro d' h
    unfold calculateRemainingTime
    rcases h with h | h <;> simp [h]
  constructor
  · intro h
    refine ⟨hterm d h, ?_⟩
    intro st sid hfind
    unfold getRemainingTime
    rw [hfind]
    simp only [hterm examDurationMinutes h]
  · intro h
    push_neg at h
    obtain ⟨h1, h2⟩ := h
    have hb : (s.sessionStatus == SessionStatus.finished
        || s.sessionStatus == SessionStatus.timeout) = false := by
      simp [h1, h2]
    by_cases hr : s.startTime + d * 60 - now < 0
    · simp only [calculateRemainingTime, hb]
      simp [hr]
      omega
    · simp only [calculateRemainingTime, hb]
      simp [hr]
      omega

/-- Claim C9 witness: a timed-out session started at instant 0, inspected at
instant 999999, still reports zero remaining time. -/
theorem claim_C9_witness :
    ((⟨"t1", "e1", "stuT", SessionStatus.timeout, 0, some 70, []⟩ :
        ExamSession).sessionStatus = SessionStatus.finished ∨
      (⟨"t1", "e1", "stuT", SessionStatus.timeout, 0, some 70, []⟩ :
        ExamSession).sessionStatus = SessionStatus.timeout)
  ∧ calculateRemainingTime
      ⟨"t1", "e1", "stuT", SessionStatus.timeout, 0, some 70, []⟩ 120 999999 =
      ⟨0, 0⟩
  ∧ getRemainingTime terminalStore "t1" 999999 = .ok ⟨0, 0⟩ := by
  have h := (claim_C9
    ⟨"t1", "e1", "stuT", SessionStatus.timeout, 0, some 70, []⟩ 120 999999).1
    (Or.inr rfl)
  exact ⟨Or.inr rfl, h.1, h.2 terminalStore "t1" (by decide)⟩

/-- Claim C4: contrary to the claim, GetRemainingTime never reads the exam's
configured duration: its result is invariant under arbitrary replacement of the
exams table, and two sessions on exams configured with 30 and 240 minutes
report the identical remaining time (the hard-coded 120-minute constant). -/
theorem claim_C4 :
    (∀ (st : Store) (otherExams : List Exam) (sid : String) (now : Int),
        getRemainingTime { st with exams := otherExams } sid now =
          getRemainingTime st sid now)
  ∧ getRemainingTime durationStore "s1" 3600 = .ok ⟨60, 0⟩
  ∧ getRemainingTime durationStore "s2" 3600 = .ok ⟨60, 0⟩
  ∧ (findExam durationStore.exams "e1").map (fun e => e.durationMinutes) =
      some 30
  ∧ (findExam durationStore.exams "e2").map (fun e => e.durationMinutes) =
      some 240 :=
  ⟨fun _ _ _ _ => rfl, by decide, by decide, by decide, by decide⟩


/-- The counting fold of service.CalculateScore touches only the correct and
unanswered counters: every other field of the accumulator passes through. -/
theorem foldl_tallyStep_inert (answers : List ScoringAnswer) (acc : ExamScore) :
    (answers.foldl tallyStep acc).id = acc.id ∧
    (answers.foldl tallyStep acc).examID = acc.examID ∧
    (answers.foldl tallyStep acc).sessionID = acc.sessionID ∧
    (answers.foldl tallyStep acc).studentID = acc.studentID ∧
    (answers.foldl tallyStep acc).totalQuestions = acc.totalQuestions ∧
    (answers.foldl tallyStep acc).wrongAnswers = acc.wrongAnswers ∧
    (answers.foldl tallyStep acc).score = acc.score ∧
    (answers.foldl tallyStep acc).createdAt = acc.createdAt := by
  induction answers generalizing acc with
  | nil => exact ⟨rfl, rfl, rfl, rfl, rfl, rfl, rfl, rfl⟩
  | cons a t ih =>
    rw [List.foldl_cons]
    have h := ih (tallyStep acc a)
    have hs : (tallyStep acc a).id = acc.id ∧
        (tallyStep acc a).examID = acc.examID ∧
        (tallyStep acc a).sessionID = acc.sessionID ∧
        (tallyStep acc a).studentID = acc.studentID ∧
        (tallyStep acc a).totalQuestions = acc.totalQuestions ∧
        (tallyStep acc a).wrongAnswers = acc.wrongAnswers ∧
        (tallyStep acc a).score = acc.score ∧
        (tallyStep acc a).createdAt = acc.createdAt := by
      unfold tallyStep
      cases h1 : a.studentAnswer == "" with
      | true => simp
      | false => cases h2 : a.studentAnswer == a.correctAnswer <;> simp
    exact ⟨h.1.trans hs.1, h.2.1.trans hs.2.1, h.2.2.1.trans hs.2.2.1,
      h.2.2.2.1.trans hs.2.2.2.1, h.2.2.2.2.1.trans hs.2.2.2.2.1,
      h.2.2.2.2.2.1.trans hs.2.2.2.2.2.1, h.2.2.2.2.2.2.1.trans hs.2.2.2.2.2.2.1,
      h.2.2.2.2.2.2.2.trans hs.2.2.2.2.2.2.2⟩

/-- The counting fold adds to the correct counter exactly the number of rows
whose non-empty student answer equals the correct answer. -/
theorem foldl_tallyStep_correct (answers : List ScoringAnswer) (acc : ExamScore) :
    (answers.foldl tallyStep acc).correctAnswers =
      acc.correctAnswers + (answers.countP (fun a =>
        !(a.studentAnswer == "") && (a.studentAnswer == a.correctAnswer)) : Int) := by
  induction answers generalizing acc with
  | nil => simp
  | cons a t ih =>
    rw [List.foldl_cons, ih (tallyStep acc a), List.countP_cons]
    unfold tallyStep
    cases h1 : a.studentAnswer == "" with
    | true => simp [h1]
    | false =>
      cases h2 : a.studentAnswer == a.correctAnswer with
      | true => simp [h1, h2]; ring
      | false => simp [h1, h2]

/-- The counting fold adds to the unanswered counter exactly the number of
rows whose student answer is empty. -/
theorem foldl_tallyStep_unanswered (answers : List ScoringAnswer)
    (acc : ExamScore) :
    (answers.foldl tallyStep acc).unansweredCount =
      acc.unansweredCount +
        (answers.countP (fun a => a.studentAnswer == "") : Int) := by
  induction answers generalizing acc with
  | nil => simp
  | cons a t ih =>
    rw [List.foldl_cons, ih (tallyStep acc a), List.countP_cons]
    unfold tallyStep
    cases h1 : a.studentAnswer == "" with
    | true => simp [h1]; ring
    | false =>
      cases h2 : a.studentAnswer == a.correctAnswer with
      | true => simp [h1, h2]
      | false => simp [h1, h2]

/-- The three classification buckets partition the joined rows. -/
theorem countP_buckets (answers : List ScoringAnswer) :
    answers.countP (fun a => a.studentAnswer == "") +
      answers.countP (fun a =>
        !(a.studentAnswer == "") && (a.studentAnswer == a.correctAnswer)) +
      answers.countP (fun a =>
        !(a.studentAnswer == "") && !(a.studentAnswer == a.correctAnswer)) =
      answers.length := by
  induction answers with
  | nil => rfl
  | cons a t ih =>
    simp only [List.countP_cons, List.length_cons]
    cases h1 : a.studentAnswer == "" with
    | true => simp [h1]; omega
    | false =>
      cases h2 : a.studentAnswer == a.correctAnswer with
      | true => simp [h1, h2]; omega
      | false => simp [h1, h2]; omega


/-- The domain CalculateScore method only writes the score percentage and the
derived wrong counter; every other field passes through, and the wrong counter
becomes total - correct - unanswered. -/
theorem calculateScoreDomain_inert (s : ExamScore) :
    (calculateScoreDomain s).id = s.id ∧
    (calculateScoreDomain s).examID = s.examID ∧
    (calculateScoreDomain s).sessionID = s.sessionID ∧
    (calculateScoreDomain s).studentID = s.studentID ∧
    (calculateScoreDomain s).totalQuestions = s.totalQuestions ∧
    (calculateScoreDomain s).correctAnswers = s.correctAnswers ∧
    (calculateScoreDomain s).unansweredCount = s.unansweredCount ∧
    (calculateScoreDomain s).createdAt = s.createdAt ∧
    (calculateScoreDomain s).wrongAnswers =
      s.totalQuestions - s.correctAnswers - s.unansweredCount := by
  unfold calculateScoreDomain
  by_cases ht : s.totalQuestions > 0 <;> simp [ht]

/-- The assembled score always carries empty exam and student references. -/
theorem scoreOfAnswers_refs (sid : String) (answers : List ScoringAnswer) :
    (scoreOfAnswers sid answers).examID = "" ∧
    (scoreOfAnswers sid answers).studentID = "" ∧
    (scoreOfAnswers sid answers).sessionID = sid := by
  unfold scoreOfAnswers
  have hd := calculateScoreDomain_inert (answers.foldl tallyStep
    ⟨"", "", sid, "", (answers.length : Int), 0, 0, 0, 0, 0⟩)
  have hi := foldl_tallyStep_inert answers
    ⟨"", "", sid, "", (answers.length : Int), 0, 0, 0, 0, 0⟩
  exact ⟨hd.2.1.trans hi.2.1, hd.2.2.2.1.trans hi.2.2.2.1,
    hd.2.2.1.trans hi.2.2.1⟩

/-- The assembled score's tallies are the three bucket counts over the joined
rows, its total is the number of rows, and the three tallies sum to the
total. -/
theorem scoreOfAnswers_tallies (sid : String) (answers : List ScoringAnswer) :
    (scoreOfAnswers sid answers).totalQuestions = (answers.length : Int) ∧
    (scoreOfAnswers sid answers).correctAnswers =
      (answers.countP (fun a =>
        !(a.studentAnswer == "") && (a.studentAnswer == a.correctAnswer)) : Int) ∧
    (scoreOfAnswers sid answers).unansweredCount =
      (answers.countP (fun a => a.studentAnswer == "") : Int) ∧
    (scoreOfAnswers sid answers).wrongAnswers =
      (answers.countP (fun a =>
        !(a.studentAnswer == "") && !(a.studentAnswer == a.correctAnswer)) : Int) ∧
    (scoreOfAnswers sid answers).correctAnswers +
        (scoreOfAnswers sid answers).wrongAnswers +
        (scoreOfAnswers sid answers).unansweredCount =
      (scoreOfAnswers sid answers).totalQuestions := by
  simp only [scoreOfAnswers]
  obtain ⟨-, -, -, -, h5, h6, h7, -, h9⟩ := calculateScoreDomain_inert
    (answers.foldl tallyStep
      ⟨"", "", sid, "", (answers.length : Int), 0, 0, 0, 0, 0⟩)
  obtain ⟨-, -, -, -, i5, -, -, -⟩ := foldl_tallyStep_inert answers
    ⟨"", "", sid, "", (answers.length : Int), 0, 0, 0, 0, 0⟩
  have hc := foldl_tallyStep_correct answers
    ⟨"", "", sid, "", (answers.length : Int), 0, 0, 0, 0, 0⟩
  have hu := foldl_tallyStep_unanswered answers
    ⟨"", "", sid, "", (answers.length : Int), 0, 0, 0, 0, 0⟩
  have hb := countP_buckets answers
  have e1 : (⟨"", "", sid, "", (answers.length : Int), 0, 0, 0, 0, 0⟩ :
      ExamScore).correctAnswers = 0 := rfl
  have e2 : (⟨"", "", sid, "", (answers.length : Int), 0, 0, 0, 0, 0⟩ :
      ExamScore).unansweredCount = 0 := rfl
  have e3 : (⟨"", "", sid, "", (answers.length : Int), 0, 0, 0, 0, 0⟩ :
      ExamScore).totalQuestions = (answers.length : Int) := rfl
  refine ⟨?_, ?_, ?_, ?_, ?_⟩ <;> omega


/-- The domain CalculateScore method's score field: the percentage when the
total is positive, otherwise untouched. -/
theorem calculateScoreDomain_score (s : ExamScore) :
    (calculateScoreDomain s).score =
      if s.totalQuestions > 0 then
        (s.correctAnswers : ℚ) / (s.totalQuestions : ℚ) * 100
      else s.score := by
  unfold calculateScoreDomain
  by_cases ht : s.totalQuestions > 0 <;> simp [ht]

/-- Claim C3: CalculateScore classifies every joined question row into exactly
one bucket — empty submitted choice is unanswered, submitted equal to correct
is correct, anything else is wrong, and the three buckets partition the exam's
question list — and on the five-question scenario with keys A,B,C,D,A and
submissions A,C,(none),(none),B it produces correct=1, wrong=2, unanswered=2
and score 20.0. -/
theorem claim_C3 :
    (∀ (sid : String) (answers : List ScoringAnswer),
      (scoreOfAnswers sid answers).unansweredCount =
        (answers.countP (fun a => a.studentAnswer == "") : Int) ∧
      (scoreOfAnswers sid answers).correctAnswers =
        (answers.countP (fun a =>
          !(a.studentAnswer == "") && (a.studentAnswer == a.correctAnswer)) : Int) ∧
      (scoreOfAnswers sid answers).wrongAnswers =
        (answers.countP (fun a =>
          !(a.studentAnswer == "") && !(a.studentAnswer == a.correctAnswer)) : Int) ∧
      answers.countP (fun a => a.studentAnswer == "") +
          answers.countP (fun a =>
            !(a.studentAnswer == "") && (a.studentAnswer == a.correctAnswer)) +
          answers.countP (fun a =>
            !(a.studentAnswer == "") && !(a.studentAnswer == a.correctAnswer)) =
        answers.length)
  ∧ ((scoreOfAnswers "sess" scenarioAnswers).correctAnswers = 1 ∧
     (scoreOfAnswers "sess" scenarioAnswers).wrongAnswers = 2 ∧
     (scoreOfAnswers "sess" scenarioAnswers).unansweredCount = 2 ∧
     (scoreOfAnswers "sess" scenarioAnswers).totalQuestions = 5 ∧
     (scoreOfAnswers "sess" scenarioAnswers).score = 20) := by
  constructor
  · intro sid answers
    obtain ⟨-, t2, t3, t4, -⟩ := scoreOfAnswers_tallies sid answers
    exact ⟨t3, t2, t4, countP_buckets answers⟩
  · refine ⟨rfl, rfl, rfl, rfl, ?_⟩
    show (calculateScoreDomain (scenarioAnswers.foldl tallyStep
      ⟨"", "", "sess", "", (scenarioAnswers.length : Int), 0, 0, 0, 0, 0⟩)).score = 20
    rw [calculateScoreDomain_score,
      show (scenarioAnswers.foldl tallyStep
        ⟨"", "", "sess", "", (scenarioAnswers.length : Int),
          0, 0, 0, 0, 0⟩).correctAnswers = 1 from rfl,
      show (scenarioAnswers.foldl tallyStep
        ⟨"", "", "sess", "", (scenarioAnswers.length : Int),
          0, 0, 0, 0, 0⟩).totalQuestions = 5 from rfl]
    norm_num

/-- Claim C6: every score CalculateScore returns satisfies
correctAnswers + wrongAnswers + unanswered = totalQuestions, and
totalQuestions is the number of questions of the scored session's exam. -/
theorem claim_C6 : ∀ (st : Store) (sid nid : String) (now : Int)
    (sc : ExamScore), (calculateScore st sid nid now).2 = .ok sc →
    (sc.correctAnswers + sc.wrongAnswers + sc.unansweredCount =
        sc.totalQuestions ∧
     ∀ es, findSession st.sessions sid = some es →
       sc.totalQuestions =
         ((st.questions.filter (fun q => q.examID == es.examID)).length : Int)) := by
  intro st sid nid now sc h
  unfold calculateScore at h
  cases hga : repoGetCorrectAnswers st sid with
  | error e => rw [hga] at h; cases e <;> simp at h
  | ok answers =>
    rw [hga] at h
    cases hcs : repoCreateScore st
        { scoreOfAnswers sid answers with id := nid, createdAt := now } with
    | mk st1 r =>
      cases r with
      | error e2 => cases e2 <;> simp only [hcs] at h <;> simp at h
      | ok u =>
        simp only [hcs] at h
        injection h with h
        subst h
        obtain ⟨t1, -, -, -, t5⟩ := scoreOfAnswers_tallies sid answers
        refine ⟨t5, ?_⟩
        intro es hes
        unfold repoGetCorrectAnswers at hga
        rw [hes] at hga
        by_cases hemp : ((st.questions.filter
            (fun q => q.examID == es.examID)).map (fun q =>
              ({ questionID := q.id, correctAnswer := q.correctAnswer,
                 studentAnswer :=
                   match es.answers.find? (fun a => a.questionID == q.id) with
                   | some a => a.selectedChoice
                   | none => "" } : ScoringAnswer))).isEmpty
        · rw [if_pos hemp] at hga
          exact absurd hga (by simp)
        · rw [if_neg hemp] at hga
          have hans : answers = (st.questions.filter
              (fun q => q.examID == es.examID)).map (fun q =>
                ({ questionID := q.id, correctAnswer := q.correctAnswer,
                   studentAnswer :=
                     match es.answers.find? (fun a => a.questionID == q.id) with
                     | some a => a.selectedChoice
                     | none => "" } : ScoringAnswer)) := by
            have h2 := hga
            simp at h2
            exact h2.symm
          rw [show ({ scoreOfAnswers sid answers with
              id := nid, createdAt := now } : ExamScore).totalQuestions =
              (scoreOfAnswers sid answers).totalQuestions from rfl, t1, hans]
          simp


/-- Claim C6 witness: scoring the one-question fixture session yields tallies
1 + 0 + 0 = 1 = the exam's question count. -/
theorem claim_C6_witness :
    ((calculateScore scoringStore "s1" "n1" 5).2 =
        .ok ⟨"n1", "", "s1", "", 1, 1, 0, 0, 100, 5⟩)
  ∧ ((⟨"n1", "", "s1", "", 1, 1, 0, 0, 100, 5⟩ : ExamScore).correctAnswers +
        (⟨"n1", "", "s1", "", 1, 1, 0, 0, 100, 5⟩ : ExamScore).wrongAnswers +
        (⟨"n1", "", "s1", "", 1, 1, 0, 0, 100, 5⟩ : ExamScore).unansweredCount =
      (⟨"n1", "", "s1", "", 1, 1, 0, 0, 100, 5⟩ : ExamScore).totalQuestions ∧
     ∀ es, findSession scoringStore.sessions "s1" = some es →
       (⟨"n1", "", "s1", "", 1, 1, 0, 0, 100, 5⟩ :
           ExamScore).totalQuestions =
         ((scoringStore.questions.filter
            (fun q => q.examID == es.examID)).length : Int)) := by
  have h : (calculateScore scoringStore "s1" "n1" 5).2 =
      .ok ⟨"n1", "", "s1", "", 1, 1, 0, 0, 100, 5⟩ := by
    simp [calculateScore, scoreOfAnswers, calculateScoreDomain, tallyStep,
      repoGetCorrectAnswers, repoCreateScore, findSession, scoringStore]
  exact ⟨h, claim_C6 scoringStore "s1" "n1" 5 _ h⟩

/-- Claim C10: contrary to the claim, the score CalculateScore persists and
returns never carries the session's exam and student references — both are
always the empty string — although the scored fixture session references exam
e1 and student stu1. -/
theorem claim_C10 :
    (∀ (st : Store) (sid nid : String) (now : Int),
      ((calculateScore st sid nid now).2.map (fun sc => sc.examID) =
        (calculateScore st sid nid now).2.map (fun _ => "")) ∧
      ((calculateScore st sid nid now).2.map (fun sc => sc.studentID) =
        (calculateScore st sid nid now).2.map (fun _ => "")))
  ∧ (calculateScore scoringStore "s1" "n1" 5).2 =
      .ok ⟨"n1", "", "s1", "", 1, 1, 0, 0, 100, 5⟩
  ∧ (findSession scoringStore.sessions "s1").map (fun s => s.examID) =
      some "e1"
  ∧ (findSession scoringStore.sessions "s1").map (fun s => s.studentID) =
      some "stu1"
  ∧ ("" : String) ≠ "e1" ∧ ("" : String) ≠ "stu1" := by
  constructor
  · intro st sid nid now
    unfold calculateScore
    cases hga : repoGetCorrectAnswers st sid with
    | error e => cases e <;> simp [Except.map]
    | ok answers =>
      cases hcs : repoCreateScore st
          { scoreOfAnswers sid answers with id := nid, createdAt := now } with
      | mk st1 r =>
        cases r with
        | error e2 => cases e2 <;> simp [hcs, Except.map]
        | ok u =>
          simp only [hcs, Except.map]
          constructor
          · exact congrArg Except.ok (scoreOfAnswers_refs sid answers).1
          · exact congrArg Except.ok (scoreOfAnswers_refs sid answers).2.1
  · refine ⟨?_, by decide, by decide, by decide, by decide⟩
    simp [calculateScore, scoreOfAnswers, calculateScoreDomain, tallyStep,
      repoGetCorrectAnswers, repoCreateScore, findSession, scoringStore]


/-- A terminal status fails the repository's is-live check. -/
theorem terminal_not_valid {x : SessionStatus}
    (h : x = SessionStatus.finished ∨ x = SessionStatus.timeout) :
    (x != SessionStatus.started && x != SessionStatus.inProgress) = true := by
  rcases h with h | h <;> subst h <;> rfl

/-- A live status passes the repository's is-live check. -/
theorem live_valid {x : SessionStatus}
    (h : x = SessionStatus.started ∨ x = SessionStatus.inProgress) :
    (x != SessionStatus.started && x != SessionStatus.inProgress) = false := by
  rcases h with h | h <;> subst h <;> rfl

/-- Claim C2 counterexample: FinishSession against a session in Timeout status
succeeds and moves it to Finished, so Timeout is not absorbing under
FinishSession. -/
theorem claim_C2_counterexample :
    (findSession terminalStore.sessions "t1").map (fun s => s.sessionStatus) =
      some SessionStatus.timeout
  ∧ (finishSession terminalStore "t1" 100).2 =
      .ok ⟨"t1", "e1", "stuT", SessionStatus.finished, 0, some 100, []⟩
  ∧ (findSession (finishSession terminalStore "t1" 100).1.sessions "t1").map
      (fun s => s.sessionStatus) = some SessionStatus.finished := by decide

/-- Claim C2 (amended): status only moves forward and SubmitAnswer against a
Finished or Timeout session fails with FailedPrecondition leaving the store
unchanged; FinishSession against a Finished session fails likewise; but
FinishSession against a Timeout session succeeds and sets the status to
Finished. -/
theorem claim_C2 : ∀ (st : Store) (sid : String) (s : ExamSession),
    findSession st.sessions sid = some s →
    ((∀ (q c : String) (now : Int),
        s.sessionStatus = SessionStatus.finished ∨
          s.sessionStatus = SessionStatus.timeout →
        submitAnswer st sid q c now =
          (st, .error ⟨.failedPrecondition,
            "session is not in valid state for answering"⟩))
    ∧ (∀ now : Int, s.sessionStatus = SessionStatus.finished →
        finishSession st sid now =
          (st, .error ⟨.failedPrecondition, "session is already finished"⟩))
    ∧ (∀ now : Int, s.sessionStatus = SessionStatus.timeout →
        (finishSession st sid now).2 =
          .ok { s with sessionStatus := SessionStatus.finished,
                       endTime := some now })) := by
  intro st sid s hfind
  refine ⟨?_, ?_, ?_⟩
  · intro q c now hterm
    unfold submitAnswer repoSubmitAnswer
    simp only [hfind, terminal_not_valid hterm, if_true]
  · intro now h1
    unfold finishSession
    simp only [hfind, h1]
    simp
  · intro now h1
    unfold finishSession repoFinishSession updateSessionStatus
    have hne : (SessionStatus.timeout == SessionStatus.finished) = false := rfl
    simp only [hfind, h1, hne, any_id_of_findSession hfind, if_true]
    simp

/-- Claim C2 witness: on the terminal fixture, SubmitAnswer against the
timed-out session and FinishSession against the finished session both fail
with FailedPrecondition and leave the store unchanged. -/
theorem claim_C2_witness :
    (findSession terminalStore.sessions "f1" =
        some ⟨"f1", "e1", "stuF", SessionStatus.finished, 0, some 40, []⟩)
  ∧ (findSession terminalStore.sessions "t1" =
        some ⟨"t1", "e1", "stuT", SessionStatus.timeout, 0, some 70, []⟩)
  ∧ submitAnswer terminalStore "t1" "q1" "A" 99 =
      (terminalStore, .error ⟨.failedPrecondition,
        "session is not in valid state for answering"⟩)
  ∧ finishSession terminalStore "f1" 99 =
      (terminalStore, .error ⟨.failedPrecondition,
        "session is already finished"⟩)
  ∧ (finishSession terminalStore "t1" 99).2 =
      .ok ⟨"t1", "e1", "stuT", SessionStatus.finished, 0, some 99, []⟩ := by
  have hf : findSession terminalStore.sessions "f1" =
      some ⟨"f1", "e1", "stuF", SessionStatus.finished, 0, some 40, []⟩ := by
    decide
  have ht : findSession terminalStore.sessions "t1" =
      some ⟨"t1", "e1", "stuT", SessionStatus.timeout, 0, some 70, []⟩ := by
    decide
  exact ⟨hf, ht,
    (claim_C2 terminalStore "t1" _ ht).1 "q1" "A" 99 (Or.inr rfl),
    (claim_C2 terminalStore "f1" _ hf).2.1 99 rfl,
    (claim_C2 terminalStore "t1" _ ht).2.2 99 rfl⟩

/-- Claim C8: StartSession fails with NotFound when the exam is absent, with
FailedPrecondition "exam is not active" when the exam exists but is not
Active, and with the distinct FailedPrecondition "student already has an
active session" when the student has a live session; in each case the store
is returned unchanged. -/
theorem claim_C8 : ∀ (st : Store) (examID studentID newID : String)
    (now : Int),
    (findExam st.exams examID = none →
      startSession st examID studentID newID now =
        (st, .error ⟨.notFound, "exam not found"⟩))
  ∧ (∀ e, findExam st.exams examID = some e → e.state ≠ ExamState.active →
      startSession st examID studentID newID now =
        (st, .error ⟨.failedPrecondition, "exam is not active"⟩))
  ∧ (∀ e, findExam st.exams examID = some e → e.state = ExamState.active →
      hasActiveSession st.sessions studentID = true →
      startSession st examID studentID newID now =
        (st, .error ⟨.failedPrecondition,
          "student already has an active session"⟩))
  ∧ ("exam is not active" : String) ≠
      "student already has an active session" := by
  intro st examID studentID newID now
  refine ⟨?_, ?_, ?_, by decide⟩
  · intro h
    unfold startSession repoIsExamActive
    simp only [h]
  · intro e he hna
    unfold startSession repoIsExamActive
    have hb : (e.state == ExamState.active) = false := by
      cases hstate : e.state
      · rfl
      · exact absurd hstate hna
      · rfl
    simp only [he, hb]
    simp
  · intro e he hact hdup
    unfold startSession repoIsExamActive
    simp only [he, hact]
    simp [hdup]

/-- Claim C8 witness: on the live fixture, an unknown exam id yields NotFound,
the merely created exam e2 yields "exam is not active", and student stu1 who
already holds a live session yields "student already has an active session". -/
theorem claim_C8_witness :
    (findExam liveStore.exams "eX" = none
      ∧ startSession liveStore "eX" "stu9" "n1" 7 =
          (liveStore, .error ⟨.notFound, "exam not found"⟩))
  ∧ (findExam liveStore.exams "e2" = some ⟨"e2", ExamState.created, 60⟩
      ∧ startSession liveStore "e2" "stu9" "n1" 7 =
          (liveStore, .error ⟨.failedPrecondition, "exam is not active"⟩))
  ∧ (findExam liveStore.exams "e1" = some ⟨"e1", ExamState.active, 60⟩
      ∧ hasActiveSession liveStore.sessions "stu1" = true
      ∧ startSession liveStore "e1" "stu1" "n1" 7 =
          (liveStore, .error ⟨.failedPrecondition,
            "student already has an active session"⟩)) :=
  ⟨⟨by decide, (claim_C8 liveStore "eX" "stu9" "n1" 7).1 (by decide)⟩,
   ⟨by decide, (claim_C8 liveStore "e2" "stu9" "n1" 7).2.1
      ⟨"e2", ExamState.created, 60⟩ (by decide) (by decide)⟩,
   ⟨by decide, by decide, (claim_C8 liveStore "e1" "stu1" "n1" 7).2.2.1
      ⟨"e1", ExamState.active, 60⟩ (by decide) (by decide) (by decide)⟩⟩


/-- Claim C7: once CalculateScore has recorded a score, calling it again for
the same session fails with AlreadyExists — the distinct status, not a generic
Internal error — and returns the store unchanged, never recomputing or
overwriting the stored score. -/
theorem claim_C7 : ∀ (st : Store) (sid nid : String) (now : Int)
    (st1 : Store) (sc : ExamScore) (nid2 : String) (now2 : Int),
    calculateScore st sid nid now = (st1, .ok sc) →
    calculateScore st1 sid nid2 now2 =
      (st1, .error ⟨.alreadyExists,
        "score already exists for this exam and student"⟩) := by
  intro st sid nid now st1 sc nid2 now2 h
  unfold calculateScore at h
  cases hga : repoGetCorrectAnswers st sid with
  | error e => rw [hga] at h; cases e <;> simp at h
  | ok answers =>
    rw [hga] at h
    cases hcs : repoCreateScore st
        { scoreOfAnswers sid answers with id := nid, createdAt := now } with
    | mk stx r =>
      cases r with
      | error e2 => cases e2 <;> simp only [hcs] at h <;> simp at h
      | ok u =>
        simp only [hcs] at h
        injection h with hA hB
        subst hA
        unfold repoCreateScore at hcs
        split at hcs
        · injection hcs with hc1 hc2
          exact absurd hc2 (by simp)
        · injection hcs with hc1 hc2
          subst hc1
          unfold calculateScore
          have hga2 : repoGetCorrectAnswers
              { st with scores := st.scores ++
                [{ scoreOfAnswers sid answers with
                     id := nid, createdAt := now }] } sid = .ok answers := hga
          rw [hga2]
          have hcond : (({ st with scores := st.scores ++
                [{ scoreOfAnswers sid answers with
                     id := nid, createdAt := now }] } : Store).scores.any
              (fun x =>
                x.examID == ({ scoreOfAnswers sid answers with
                    id := nid2, createdAt := now2 } : ExamScore).examID &&
                x.studentID == ({ scoreOfAnswers sid answers with
                    id := nid2, createdAt := now2 } :
                      ExamScore).studentID)) = true := by
            show ((st.scores ++ [{ scoreOfAnswers sid answers with
                id := nid, createdAt := now }]).any _) = true
            rw [List.any_append]
            have hr := scoreOfAnswers_refs sid answers
            simp [hr.1, hr.2.1]
          unfold repoCreateScore
          simp only [hcond, if_true]


/-- Claim C7 witness: scoring the fixture session once succeeds; the second
call for the same session fails with AlreadyExists and leaves the store
unchanged. -/
theorem claim_C7_witness :
    calculateScore scoringStore "s1" "n1" 5 =
      (⟨[⟨"e1", ExamState.active, 60⟩], [⟨"q1", "e1", "A"⟩],
        [⟨"s1", "e1", "stu1", SessionStatus.finished, 0, some 50,
          [⟨"q1", "A", 10⟩]⟩],
        [⟨"n1", "", "s1", "", 1, 1, 0, 0, 100, 5⟩]⟩,
       .ok ⟨"n1", "", "s1", "", 1, 1, 0, 0, 100, 5⟩)
  ∧ calculateScore
      ⟨[⟨"e1", ExamState.active, 60⟩], [⟨"q1", "e1", "A"⟩],
        [⟨"s1", "e1", "stu1", SessionStatus.finished, 0, some 50,
          [⟨"q1", "A", 10⟩]⟩],
        [⟨"n1", "", "s1", "", 1, 1, 0, 0, 100, 5⟩]⟩ "s1" "n2" 9 =
      (⟨[⟨"e1", ExamState.active, 60⟩], [⟨"q1", "e1", "A"⟩],
        [⟨"s1", "e1", "stu1", SessionStatus.finished, 0, some 50,
          [⟨"q1", "A", 10⟩]⟩],
        [⟨"n1", "", "s1", "", 1, 1, 0, 0, 100, 5⟩]⟩,
       .error ⟨.alreadyExists,
         "score already exists for this exam and student"⟩) := by
  have h : calculateScore scoringStore "s1" "n1" 5 =
      (⟨[⟨"e1", ExamState.active, 60⟩], [⟨"q1", "e1", "A"⟩],
        [⟨"s1", "e1", "stu1", SessionStatus.finished, 0, some 50,
          [⟨"q1", "A", 10⟩]⟩],
        [⟨"n1", "", "s1", "", 1, 1, 0, 0, 100, 5⟩]⟩,
       .ok ⟨"n1", "", "s1", "", 1, 1, 0, 0, 100, 5⟩) := by
    simp [calculateScore, scoreOfAnswers, calculateScoreDomain, tallyStep,
      repoGetCorrectAnswers, repoCreateScore, findSession, scoringStore,
      Store.mk.injEq]
  exact ⟨h, claim_C7 scoringStore "s1" "n1" 5 _ _ "n2" 9 h⟩


/-- An update that can only lose liveness and preserves student ownership
preserves the one-live-session-per-student invariant. -/
theorem atMostOne_map (l : List ExamSession) (f : ExamSession → ExamSession)
    (hf : ∀ x ∈ l, (isLive (f x).sessionStatus = true →
        isLive x.sessionStatus = true) ∧ (f x).studentID = x.studentID) :
    atMostOneLivePerStudent l → atMostOneLivePerStudent (l.map f) := by
  intro h
  unfold atMostOneLivePerStudent at *
  rw [List.pairwise_map]
  refine h.imp_of_mem ?_
  intro a b ha hb hab
  unfold noTwoLive at *
  rintro ⟨h1, h2, h3⟩
  exact hab ⟨(hf a ha).1 h1, (hf b hb).1 h2,
    ((hf a ha).2).symm.trans (h3.trans (hf b hb).2)⟩

/-- A session row with a matching primary key inside a table whose keys are
unique is the row the lookup returns. -/
theorem eq_found_of_nodup {l : List ExamSession} {sid : String}
    {s x : ExamSession} (hnd : sessionIdsNodup l)
    (hfind : findSession l sid = some s) (hx : x ∈ l)
    (hxid : x.id = sid) : x = s := by
  unfold findSession at hfind
  unfold sessionIdsNodup at hnd
  have hs := List.mem_of_find?_eq_some
    (p := fun y : ExamSession => y.id == sid) hfind
  have hsid : (s.id == sid) = true :=
    List.find?_some (p := fun y : ExamSession => y.id == sid) hfind
  have hsid2 : s.id = sid := by simpa using hsid
  exact List.inj_on_of_nodup_map hnd hx hs (hxid.trans hsid2.symm)


/-- StartSession preserves the one-live-session-per-student invariant. -/
theorem startSession_preserves (st : Store)
    (examID studentID newID : String) (now : Int)
    (h : atMostOneLivePerStudent st.sessions) :
    atMostOneLivePerStudent
      (startSession st examID studentID newID now).1.sessions := by
  unfold startSession repoIsExamActive repoStartSession
  cases hfe : findExam st.exams examID with
  | none => exact h
  | some e =>
    cases hact : (e.state == ExamState.active) with
    | false =>
      simp only [hact, Bool.not_false, if_true]
      exact h
    | true =>
      simp only [hact, Bool.not_true, Bool.false_eq_true, if_false]
      cases hdup : hasActiveSession st.sessions studentID with
      | true => simp only [if_true]; exact h
      | false =>
        have hne : (e.state != ExamState.active) = false := by
          simp [bne, hact]
        simp only [hfe, hne, hdup, Bool.false_eq_true, if_false]
        unfold atMostOneLivePerStudent at *
        rw [List.pairwise_append]
        refine ⟨h, List.pairwise_singleton _ _, ?_⟩
        intro x hx y hy
        simp only [List.mem_singleton] at hy
        subst hy
        unfold noTwoLive
        rintro ⟨h1, -, h3⟩
        have hany := List.any_eq_false.mp (by
          unfold hasActiveSession at hdup
          exact hdup) x hx
        simp only [Bool.and_eq_true, beq_iff_eq] at hany
        exact hany ⟨h3, h1⟩


/-- FinishSession preserves the one-live-session-per-student invariant. -/
theorem finishSession_preserves (st : Store) (sid : String) (now : Int)
    (h : atMostOneLivePerStudent st.sessions) :
    atMostOneLivePerStudent (finishSession st sid now).1.sessions := by
  unfold finishSession repoFinishSession updateSessionStatus
  cases hfind : findSession st.sessions sid with
  | none => exact h
  | some s =>
    cases hst : (s.sessionStatus == SessionStatus.finished) with
    | true => simp only [hst, if_true]; exact h
    | false =>
      simp only [hst, Bool.false_eq_true, if_false]
      cases hany : st.sessions.any (fun x => x.id == sid) with
      | false => simp only [Bool.false_eq_true, if_false]; exact h
      | true =>
        simp only [if_true]
        apply atMostOne_map _ _ _ h
        intro x _
        by_cases hid : (x.id == sid) = true
        · refine ⟨?_, by simp [hid]⟩
          intro hl
          simp only [hid, if_true] at hl
          exact absurd hl (by simp [isLive])
        · simp only [Bool.not_eq_true] at hid
          exact ⟨by simp [hid], by simp [hid]⟩


/-- SubmitAnswer preserves the one-live-session-per-student invariant, given
the table's primary-key uniqueness. -/
theorem submitAnswer_preserves (st : Store) (sid q c : String) (now : Int)
    (hnd : sessionIdsNodup st.sessions)
    (h : atMostOneLivePerStudent st.sessions) :
    atMostOneLivePerStudent (submitAnswer st sid q c now).1.sessions := by
  unfold submitAnswer repoSubmitAnswer updateSessionStatus
  cases hfind : findSession st.sessions sid with
  | none => exact h
  | some s =>
    cases hval : (s.sessionStatus != SessionStatus.started &&
        s.sessionStatus != SessionStatus.inProgress) with
    | true => simp only [hval, if_true]; exact h
    | false =>
      simp only [hval, Bool.false_eq_true, if_false]
      have hf1 : atMostOneLivePerStudent (st.sessions.map (fun x =>
          if (x.id == sid) = true then
            { x with answers := upsertAnswer x.answers ⟨q, c, now⟩ }
          else x)) := by
        apply atMostOne_map _ _ _ h
        intro x _
        by_cases hid : (x.id == sid) = true <;> simp [hid]
      cases hss : (s.sessionStatus == SessionStatus.started) with
      | false =>
        simp only [hss, Bool.false_eq_true, if_false]
        exact hf1
      | true =>
        simp only [hss, if_true]
        cases hany : ((st.sessions.map (fun x =>
            if (x.id == sid) = true then
              { x with answers := upsertAnswer x.answers ⟨q, c, now⟩ }
            else x)).any (fun x => x.id == sid)) with
        | false =>
          simp only [hany, Bool.false_eq_true, if_false]
          exact hf1
        | true =>
          simp only [hany, if_true]
          apply atMostOne_map _ _ _ hf1
          intro x hx
          by_cases hid : (x.id == sid) = true
          · refine ⟨?_, by simp [hid]⟩
            intro _
            have hnd1 : sessionIdsNodup (st.sessions.map (fun y =>
                if (y.id == sid) = true then
                  { y with answers := upsertAnswer y.answers ⟨q, c, now⟩ }
                else y)) := by
              unfold sessionIdsNodup at *
              rw [List.map_map]
              have hcomp : ((fun z : ExamSession => z.id) ∘ (fun y =>
                  if (y.id == sid) = true then
                    { y with answers := upsertAnswer y.answers ⟨q, c, now⟩ }
                  else y)) = fun z : ExamSession => z.id := by
                funext y
                show (if (y.id == sid) = true then
                    { y with answers := upsertAnswer y.answers ⟨q, c, now⟩ }
                  else y).id = y.id
                cases hy : (y.id == sid) with
                | true => simp only [hy, if_true]
                | false => simp only [hy, Bool.false_eq_true, if_false]
              rw [hcomp]
              exact hnd
            have hfind1 : findSession (st.sessions.map (fun y =>
                if (y.id == sid) = true then
                  { y with answers := upsertAnswer y.answers ⟨q, c, now⟩ }
                else y)) sid = some (if (s.id == sid) = true then
                  { s with answers := upsertAnswer s.answers ⟨q, c, now⟩ }
                else s) := by
              rw [findSession_map _ (fun y => by
                cases hy : (y.id == sid) with
                | true => simp only [hy, if_true]
                | false => simp only [hy, Bool.false_eq_true, if_false]) sid,
                hfind]
              rfl
            have hxeq := eq_found_of_nodup hnd1 hfind1 hx (by simpa using hid)
            have hsid : (s.id == sid) = true := by
              unfold findSession at hfind
              exact List.find?_some (p := fun y : ExamSession => y.id == sid)
                hfind
            rw [hxeq]
            simp only [hsid, if_true]
            show isLive s.sessionStatus = true
            rw [show s.sessionStatus = SessionStatus.started by
              simpa using hss]
            rfl
          · exact ⟨by simp [hid], by simp [hid]⟩


/-- Claim C1: every core operation (StartSession, SubmitAnswer,
FinishSession) preserves the at-most-one-live-session-per-student invariant,
and StartSession for a student who already has a live session leaves the
store unchanged and — when the exam exists and is active — fails with
FailedPrecondition. -/
theorem claim_C1 : ∀ (st : Store), atMostOneLivePerStudent st.sessions →
    ((∀ (examID studentID newID : String) (now : Int),
        atMostOneLivePerStudent
          (startSession st examID studentID newID now).1.sessions)
    ∧ (∀ (sid q c : String) (now : Int), sessionIdsNodup st.sessions →
        atMostOneLivePerStudent (submitAnswer st sid q c now).1.sessions)
    ∧ (∀ (sid : String) (now : Int),
        atMostOneLivePerStudent (finishSession st sid now).1.sessions)
    ∧ (∀ (examID studentID newID : String) (now : Int),
        hasActiveSession st.sessions studentID = true →
        (startSession st examID studentID newID now).1 = st ∧
        (∀ e, findExam st.exams examID = some e →
          e.state = ExamState.active →
          startSession st examID studentID newID now =
            (st, .error ⟨.failedPrecondition,
              "student already has an active session"⟩)))) := by
  intro st h
  refine ⟨fun eID sID nID now => startSession_preserves st eID sID nID now h,
    fun sid q c now hnd => submitAnswer_preserves st sid q c now hnd h,
    fun sid now => finishSession_preserves st sid now h, ?_⟩
  intro examID studentID newID now hdup
  constructor
  · unfold startSession repoIsExamActive
    cases hfe : findExam st.exams examID with
    | none => rfl
    | some e =>
      cases hact : (e.state == ExamState.active) with
      | false => simp only [hact, Bool.not_false, if_true]
      | true =>
        simp only [hact, Bool.not_true, Bool.false_eq_true, if_false, hdup,
          if_true]
  · intro e he hact2
    unfold startSession repoIsExamActive
    have hbt : (e.state == ExamState.active) = true := by simp [hact2]
    simp only [he, hbt, Bool.not_true, Bool.false_eq_true, if_false, hdup,
      if_true]

/-- Claim C1 witness: on the live fixture the invariant holds, is preserved
by each operation, and a second StartSession for student stu1 fails with
FailedPrecondition leaving the store unchanged. -/
theorem claim_C1_witness :
    atMostOneLivePerStudent liveStore.sessions
  ∧ sessionIdsNodup liveStore.sessions
  ∧ hasActiveSession liveStore.sessions "stu1" = true
  ∧ atMostOneLivePerStudent
      (startSession liveStore "e1" "stu2" "n2" 7).1.sessions
  ∧ atMostOneLivePerStudent
      (submitAnswer liveStore "s1" "q1" "A" 8).1.sessions
  ∧ atMostOneLivePerStudent (finishSession liveStore "s1" 9).1.sessions
  ∧ startSession liveStore "e1" "stu1" "n3" 7 =
      (liveStore, .error ⟨.failedPrecondition,
        "student already has an active session"⟩) := by
  have hinv : atMostOneLivePerStudent liveStore.sessions := by decide
  have h := claim_C1 liveStore hinv
  exact ⟨hinv, by decide, by decide,
    h.1 "e1" "stu2" "n2" 7,
    h.2.1 "s1" "q1" "A" 8 (by decide),
    h.2.2.1 "s1" 9,
    (h.2.2.2 "e1" "stu1" "n3" 7 (by decide)).2 ⟨"e1", ExamState.active, 60⟩
      (by decide) (by decide)⟩


/-- After an upsert into a ledger holding at most one row for the question,
the ledger holds exactly one row for the question and it carries the newly
submitted choice. -/
theorem upsert_single (l : List Answer) (qid c : String) (t : Int)
    (hle : (l.filter (fun x => x.questionID == qid)).length ≤ 1) :
    ((upsertAnswer l ⟨qid, c, t⟩).filter
        (fun x => x.questionID == qid)).map (fun x => x.selectedChoice) =
      [c] := by
  unfold upsertAnswer
  cases hany : l.any (fun x =>
      x.questionID == (⟨qid, c, t⟩ : Answer).questionID) with
  | false =>
    simp only [hany, Bool.false_eq_true, if_false]
    rw [List.filter_append]
    have hl : l.filter (fun x => x.questionID == qid) = [] := by
      rw [List.filter_eq_nil_iff]
      intro x hx
      exact List.any_eq_false.mp hany x hx
    rw [hl]
    simp
  | true =>
    simp only [hany, if_true]
    rw [List.filter_map]
    have hfc : List.filter ((fun x : Answer => x.questionID == qid) ∘
        (fun x : Answer =>
          if (x.questionID == qid) = true then
            { questionID := x.questionID, selectedChoice := c, answeredAt := t }
          else x)) l =
        List.filter (fun x : Answer => x.questionID == qid) l := by
      apply List.filter_congr
      intro x _
      show ((if (x.questionID == qid) = true then
          ({ questionID := x.questionID, selectedChoice := c,
             answeredAt := t } : Answer)
        else x).questionID == qid) = (x.questionID == qid)
      cases hx : (x.questionID == qid) with
      | true => simp only [hx, if_true]
      | false => simp only [hx, Bool.false_eq_true, if_false]
    rw [hfc]
    have hpos : 0 < (l.filter (fun x : Answer =>
        x.questionID == qid)).length := by
      obtain ⟨x, hx, hpx⟩ := List.any_eq_true.mp hany
      exact List.length_pos.mpr
        (List.ne_nil_of_mem (List.mem_filter.mpr ⟨hx, by simpa using hpx⟩))
    have h1 : (l.filter (fun x : Answer =>
        x.questionID == qid)).length = 1 := le_antisymm hle hpos
    obtain ⟨x, hx⟩ := List.length_eq_one.mp h1
    rw [hx]
    have hpx : (x.questionID == qid) = true := by
      have hmem : x ∈ l.filter (fun x : Answer => x.questionID == qid) := by
        rw [hx]; exact List.mem_singleton_self x
      exact (List.mem_filter.mp hmem).2
    simp only [List.map_cons, List.map_nil, hpx, if_true]


/-- Effect of one successful SubmitAnswer on the submitted-to session: the
call reports success, and the session's ledger is upserted while its status
becomes IN_PROGRESS (advanced from STARTED on a first answer, unchanged when
already IN_PROGRESS). -/
theorem submitAnswer_effect (st : Store) (sid qid c : String) (t : Int)
    (s : ExamSession) (hfind : findSession st.sessions sid = some s)
    (hlive : s.sessionStatus = SessionStatus.started ∨
      s.sessionStatus = SessionStatus.inProgress) :
    (submitAnswer st sid qid c t).2 = .ok true ∧
    findSession (submitAnswer st sid qid c t).1.sessions sid =
      some { s with sessionStatus := SessionStatus.inProgress,
                    answers := upsertAnswer s.answers ⟨qid, c, t⟩ } := by
  have hsid : (s.id == sid) = true := by
    unfold findSession at hfind
    exact List.find?_some (p := fun y : ExamSession => y.id == sid) hfind
  unfold submitAnswer repoSubmitAnswer updateSessionStatus
  simp only [hfind]
  rw [live_valid hlive]
  simp only [Bool.false_eq_true, if_false]
  have hfind1 : findSession (st.sessions.map (fun x =>
      if (x.id == sid) = true then
        { x with answers := upsertAnswer x.answers ⟨qid, c, t⟩ }
      else x)) sid = some (if (s.id == sid) = true then
        { s with answers := upsertAnswer s.answers ⟨qid, c, t⟩ } else s) := by
    rw [findSession_map _ (fun y => by
      cases hy : (y.id == sid) with
      | true => simp only [hy, if_true]
      | false => simp only [hy, Bool.false_eq_true, if_false]) sid, hfind]
    rfl
  rcases hlive with h1 | h1
  · simp only [h1, beq_self_eq_true, if_true]
    have hany : ((st.sessions.map (fun x =>
        if (x.id == sid) = true then
          { x with answers := upsertAnswer x.answers ⟨qid, c, t⟩ }
        else x)).any (fun x => x.id == sid)) = true :=
      any_id_of_findSession hfind1
    simp only [hany, if_true]
    refine ⟨trivial, ?_⟩
    rw [findSession_map _ (fun y => by
      cases hy : (y.id == sid) with
      | true => simp only [hy, if_true]
      | false => simp only [hy, Bool.false_eq_true, if_false]) sid, hfind1]
    have hb : (SessionStatus.inProgress == SessionStatus.finished
        || SessionStatus.inProgress == SessionStatus.timeout) = false := rfl
    simp only [hsid, if_true, Option.map_some', hb, Bool.false_eq_true,
      if_false]
  · simp only [h1]
    have hb2 : (SessionStatus.inProgress == SessionStatus.started) = false :=
      rfl
    simp only [hb2, Bool.false_eq_true, if_false]
    refine ⟨trivial, ?_⟩
    rw [findSession_map _ (fun y => by
      cases hy : (y.id == sid) with
      | true => simp only [hy, if_true]
      | false => simp only [hy, Bool.false_eq_true, if_false]) sid, hfind]
    simp only [Option.map_some', hsid, if_true, h1]


/-- Claim C5: SubmitAnswer is an upsert keyed by (session, question): for any
live session whose ledger holds at most one row for the question (the
session_answers primary-key invariant), submitting one choice and then a
second choice for the same question succeeds twice and leaves exactly one
stored answer for that question, carrying the later choice. -/
theorem claim_C5 : ∀ (st : Store) (sid q c1 c2 : String) (t1 t2 : Int)
    (s : ExamSession),
    findSession st.sessions sid = some s →
    (s.sessionStatus = SessionStatus.started ∨
      s.sessionStatus = SessionStatus.inProgress) →
    (s.answers.filter (fun a => a.questionID == q)).length ≤ 1 →
    ((submitAnswer st sid q c1 t1).2 = .ok true ∧
     (submitAnswer (submitAnswer st sid q c1 t1).1 sid q c2 t2).2 =
       .ok true ∧
     (findSession (submitAnswer (submitAnswer st sid q c1 t1).1 sid q c2
        t2).1.sessions sid).map (fun s2 =>
          (s2.answers.filter (fun a => a.questionID == q)).map
            (fun a => a.selectedChoice)) = some [c2]) := by
  intro st sid q c1 c2 t1 t2 s hfind hlive hle
  obtain ⟨r1, f1⟩ := submitAnswer_effect st sid q c1 t1 s hfind hlive
  obtain ⟨r2, f2⟩ := submitAnswer_effect (submitAnswer st sid q c1 t1).1 sid
    q c2 t2
    { s with sessionStatus := SessionStatus.inProgress,
             answers := upsertAnswer s.answers ⟨q, c1, t1⟩ } f1 (Or.inr rfl)
  refine ⟨r1, r2, ?_⟩
  rw [f2]
  simp only [Option.map_some']
  congr 1
  show ((upsertAnswer (upsertAnswer s.answers ⟨q, c1, t1⟩)
      ⟨q, c2, t2⟩).filter (fun a => a.questionID == q)).map
      (fun a => a.selectedChoice) = [c2]
  have hlen := congrArg List.length (upsert_single s.answers q c1 t1 hle)
  simp only [List.length_map, List.length_cons, List.length_nil] at hlen
  exact upsert_single (upsertAnswer s.answers ⟨q, c1, t1⟩) q c2 t2
    (le_of_eq hlen)

/-- Claim C5 witness: on the live fixture's started session, submitting A
then B for question qz leaves exactly one stored answer, with value B. -/
theorem claim_C5_witness :
    (findSession liveStore.sessions "s1" =
      some ⟨"s1", "e1", "stu1", SessionStatus.started, 5, none, []⟩)
  ∧ ((submitAnswer liveStore "s1" "qz" "A" 11).2 = .ok true
  ∧ (submitAnswer (submitAnswer liveStore "s1" "qz" "A" 11).1 "s1" "qz" "B"
      12).2 = .ok true
  ∧ (findSession (submitAnswer (submitAnswer liveStore "s1" "qz" "A" 11).1
      "s1" "qz" "B" 12).1.sessions "s1").map (fun s2 =>
        (s2.answers.filter (fun a => a.questionID == "qz")).map
          (fun a => a.selectedChoice)) = some ["B"]) := by
  have hf : findSession liveStore.sessions "s1" =
      some ⟨"s1", "e1", "stu1", SessionStatus.started, 5, none, []⟩ := by
    decide
  exact ⟨hf, claim_C5 liveStore "s1" "qz" "A" "B" 11 12 _ hf (Or.inl rfl)
    (by decide)⟩

end CbtExam
